import Mathlib

/-!
# Verification of `loan.py` (loan balance / interest projection)

Shallow embedding of the module `loan.py`.  Python `Decimal` values are
modelled by their exact rational value; a literal passed as an argument is
modelled by `PDec` (coefficient and exponent), since input validation
inspects the exponent of the representation, not only the value.

The one operation of the source with no exact rational value is the
`Decimal` power with the fractional exponent `1/12` used for
`InterestType.EFFECTIVE`: the `decimal` library returns a context-precision
approximation of the real 12th root.  The projection engine is therefore
parametric in a function `e : ℚ → ℚ` standing for that approximated
conversion `a ↦ (1 + a/100)^(1/12) - 1`, while the exact real-valued
converter `monthly_interest_rate` is embedded separately over `ℝ` for the
claims about the conversion formulas themselves.  Every other arithmetic
step of the source (sums, differences, products, the integer powers and the
divisions, and the `quantize` rounding) is exact rational arithmetic here.

Python exceptions are modelled by `Except PyErr`; `ValueError` and
`TypeError` are the two exception classes the module raises.
-/

/-- The two exception classes raised by `loan.py`: `ValueError` ("invalid
argument" domain errors) and `TypeError` (type mismatches). -/
inductive PyErr where
  | valueError (msg : String)
  | typeError (msg : String)
  deriving DecidableEq, Repr

/-- A Python `Decimal` literal as passed to `loan_projection`: the value is
`mant * 10 ^ exp`.  `Decimal.as_tuple().exponent` is `exp`, so the
decimal-places validation reads `-exp`, an attribute of the representation
rather than of the value alone. -/
structure PDec where
  mant : ℤ
  exp : ℤ
  deriving DecidableEq, Repr

/-- The exact rational value of a `Decimal` literal. -/
def PDec.toRat (d : PDec) : ℚ :=
  (d.mant : ℚ) * (10 : ℚ) ^ d.exp

/-- `-value.as_tuple().exponent`, the quantity the source compares against
`DECIMAL_PLACES_IO = 2`. -/
def PDec.places (d : PDec) : ℤ :=
  -d.exp

/-- The `interest_type` argument position.  The source enum `InterestType`
has exactly the members `EFFECTIVE` and `NOMINAL`; Python being dynamically
typed, `loan_projection` can nevertheless be called with any value there,
and `invalid` models such a non-member value. -/
inductive InterestTypeArg where
  | EFFECTIVE
  | NOMINAL
  | invalid
  deriving DecidableEq, Repr

/-- Round-half-to-even of a rational to the nearest integer
(`ROUND_HALF_EVEN`). -/
def roundHalfEvenInt (q : ℚ) : ℤ :=
  if q - Int.floor q < 1 / 2 then Int.floor q
  else if 1 / 2 < q - Int.floor q then Int.floor q + 1
  else if Int.floor q % 2 = 0 then Int.floor q
  else Int.floor q + 1

/-- `round_decimal`: quantize to `DECIMAL_PLACES_IO = 2` decimal places with
`OUTPUT_ROUNDING_METHOD = ROUND_HALF_EVEN`. -/
def round_decimal (value : ℚ) : ℚ :=
  (roundHalfEvenInt (value * 100) : ℚ) / 100

/-- The frozen dataclass `LoanProjection`. -/
structure LoanProjection where
  month_end_balance : List ℚ
  monthly_interest_charged : List ℚ
  deriving DecidableEq, Repr

/-- Construction of a `LoanProjection` together with its `__post_init__`
check: unequal sequence lengths raise `ValueError` instead of producing a
value. -/
def LoanProjection.make (mb mi : List ℚ) : Except PyErr LoanProjection :=
  if mb.length = mi.length then .ok ⟨mb, mi⟩
  else .error (.valueError "Data inputs have unequal length.")

/-- `loan_balance`: the closed-form remaining balance after `months`
monthly payments. -/
def loan_balance (principal monthly_rate : ℚ) (months : ℕ)
    (monthly_payment : ℚ) : ℚ :=
  principal * ((monthly_rate + 1) ^ months)
    - monthly_payment * (((monthly_rate + 1) ^ months) - 1) / monthly_rate

/-- `monthly_interest_rate`, embedded over the reals: the exact value of the
conversion the source states.  (`decimal` evaluates the `EFFECTIVE` power
`(1 + a/100) ** (1/12)` as a context-precision approximation of this real
number; the formula itself is this.) -/
noncomputable def monthly_interest_rate (a : ℝ) :
    InterestTypeArg → Except PyErr ℝ
  | .EFFECTIVE => .ok ((1 + a / 100) ^ ((1 : ℝ) / 12) - 1)
  | .NOMINAL => .ok (a / (12 * 100))
  | .invalid => .error (.valueError "Unknown interest rate type.")

/-- `monthly_interest_rate` as evaluated by the projection engine on
`Decimal`s: `e` is the engine's approximated `EFFECTIVE` conversion
`a ↦ (1 + a/100)^(1/12) - 1` (see the module comment); `NOMINAL` is the
exact division; a non-member interest type raises `ValueError`. -/
def monthly_interest_rateDec (e : ℚ → ℚ) (a : ℚ) :
    InterestTypeArg → Except PyErr ℚ
  | .EFFECTIVE => .ok (e a)
  | .NOMINAL => .ok (a / (12 * 100))
  | .invalid => .error (.valueError "Unknown interest rate type.")

/-- The validation block of `loan_projection`, in the source's check order:
negativity of `principal`, `interest_rate_annual_percentage`, `term_months`,
`monthly_payment`; zero-ness of `term_months`, `principal`; decimal places
of `principal`, `monthly_payment`; then integrality of `term_months`. -/
def validate (principal : PDec) (rate term : ℚ) (payment : PDec) :
    Except PyErr Unit :=
  if principal.toRat < 0 then
    .error (.valueError "Argument principal cannot be negative.")
  else if rate < 0 then
    .error (.valueError "Argument interest_rate_annual_percentage cannot be negative.")
  else if term < 0 then
    .error (.valueError "Argument term_months cannot be negative.")
  else if payment.toRat < 0 then
    .error (.valueError "Argument monthly_payment cannot be negative.")
  else if term = 0 then
    .error (.valueError "Argument term_months cannot be zero.")
  else if principal.toRat = 0 then
    .error (.valueError "Argument principal cannot be zero.")
  else if 2 < principal.places then
    .error (.valueError "Argument principal cannot have more than 2 decimal places.")
  else if 2 < payment.places then
    .error (.valueError "Argument monthly_payment cannot have more than 2 decimal places.")
  else if term.den ≠ 1 then
    .error (.typeError "Argument term_months must be an integer.")
  else .ok ()

/-- The raw (unrounded) per-month balance list of `loan_projection`: the
linear decrement when the annual rate is zero, otherwise `loan_balance` at
the converted monthly rate, for `n + 1` in `1 .. term`. -/
def rawBalances (e : ℚ → ℚ) (p a pay : ℚ) (t : ℕ) (ity : InterestTypeArg) :
    Except PyErr (List ℚ) :=
  if a = 0 then
    .ok ((List.range t).map (fun n : ℕ => p - pay * ((n : ℚ) + 1)))
  else
    match monthly_interest_rateDec e a ity with
    | .error err => .error err
    | .ok r => .ok ((List.range t).map (fun n => loan_balance p r (n + 1) pay))

/-- `next((i + 1 for i, bal in enumerate(l) if bal <= 0), default)` without
the `+ 1`: index of the first entry `≤ 0`, scanning left to right. -/
def firstNonpos : List ℚ → Option ℕ
  | [] => none
  | b :: rest => if b ≤ 0 then some 0 else (firstNonpos rest).map (fun i => i + 1)

/-- `stop_index`: one past the first raw balance `≤ 0`, or `term_months`
when every raw balance is positive. -/
def stopIndex (l : List ℚ) (t : ℕ) : ℕ :=
  match firstNonpos l with
  | some i => i + 1
  | none => t

/-- `month_start_balance = [principal] + month_end_balance[:-1]`. -/
def monthStartBalances (p : ℚ) (mb : List ℚ) : List ℚ :=
  p :: mb.dropLast

/-- The reconciled interest list: `end_bal - start_bal + monthly_payment`
pairwise over the rounded balances and the start balances. -/
def interestCharged (p pay : ℚ) (mb : List ℚ) : List ℚ :=
  List.zipWith (fun end_bal start_bal => end_bal - start_bal + pay)
    mb (monthStartBalances p mb)

/-- `loan_projection`: validate, build the raw balance list, truncate at
`stop_index`, round for display, reconcile interest, and construct the
result.  (`print_table` only prints and is omitted.) -/
def loan_projection (e : ℚ → ℚ) (principal : PDec) (rate term : ℚ)
    (payment : PDec) (ity : InterestTypeArg) : Except PyErr LoanProjection :=
  match validate principal rate term payment with
  | .error err => .error err
  | .ok _ =>
    let t := term.num.toNat
    match rawBalances e principal.toRat rate payment.toRat t ity with
    | .error err => .error err
    | .ok raw =>
      let mb := (raw.take (stopIndex raw t)).map round_decimal
      LoanProjection.make mb (interestCharged principal.toRat payment.toRat mb)

/-- A rational is an integer multiple of `0.01` (has at most two decimal
places as a value). -/
def IsCenti (q : ℚ) : Prop :=
  ∃ k : ℤ, q = (k : ℚ) / 100

instance {ε α : Type} [DecidableEq ε] [DecidableEq α] :
    DecidableEq (Except ε α) := fun x y =>
  match x, y with
  | .error e1, .error e2 => decidable_of_iff (e1 = e2) (by simp)
  | .error _, .ok _ => isFalse (fun hc => Except.noConfusion hc)
  | .ok _, .error _ => isFalse (fun hc => Except.noConfusion hc)
  | .ok a1, .ok a2 => decidable_of_iff (a1 = a2) (by simp)

/-! ## Basic lemmas about rounding and two-decimal-place values -/

lemma IsCenti.sub {a b : ℚ} (ha : IsCenti a) (hb : IsCenti b) :
    IsCenti (a - b) := by
  obtain ⟨j, rfl⟩ := ha
  obtain ⟨k, rfl⟩ := hb
  exact ⟨j - k, by push_cast; ring⟩

lemma IsCenti.add {a b : ℚ} (ha : IsCenti a) (hb : IsCenti b) :
    IsCenti (a + b) := by
  obtain ⟨j, rfl⟩ := ha
  obtain ⟨k, rfl⟩ := hb
  exact ⟨j + k, by push_cast; ring⟩

lemma IsCenti.mul_natCast {a : ℚ} (ha : IsCenti a) (n : ℕ) :
    IsCenti (a * n) := by
  obtain ⟨j, rfl⟩ := ha
  exact ⟨j * n, by push_cast; ring⟩

lemma PDec.isCenti_toRat {d : PDec} (h : d.places ≤ 2) : IsCenti d.toRat := by
  have h2 : (0 : ℤ) ≤ d.exp + 2 := by
    unfold PDec.places at h
    omega
  refine ⟨d.mant * 10 ^ (d.exp + 2).toNat, ?_⟩
  unfold PDec.toRat
  have h10 : ((10 : ℚ) : ℚ) ^ (d.exp + 2).toNat = (10 : ℚ) ^ (d.exp + 2) := by
    rw [← zpow_natCast (10 : ℚ) (d.exp + 2).toNat, Int.toNat_of_nonneg h2]
  have hsplit : (10 : ℚ) ^ (d.exp + 2) = 10 ^ d.exp * 100 := by
    rw [zpow_add₀ (by norm_num : (10 : ℚ) ≠ 0)]
    norm_num
  push_cast
  rw [h10, hsplit]
  field_simp
  ring

lemma roundHalfEvenInt_intCast (k : ℤ) : roundHalfEvenInt (k : ℚ) = k := by
  unfold roundHalfEvenInt
  rw [Int.floor_intCast]
  norm_num

lemma round_decimal_isCenti (q : ℚ) : IsCenti (round_decimal q) :=
  ⟨roundHalfEvenInt (q * 100), rfl⟩

lemma round_decimal_eq_self {q : ℚ} (h : IsCenti q) : round_decimal q = q := by
  obtain ⟨k, rfl⟩ := h
  unfold round_decimal
  have h1 : (k : ℚ) / 100 * 100 = (k : ℚ) := by field_simp
  rw [h1, roundHalfEvenInt_intCast]

/-! ## Lemmas about validation -/

lemma validate_ok_iff (principal : PDec) (rate term : ℚ) (payment : PDec) :
    validate principal rate term payment = .ok () ↔
      0 < principal.toRat ∧ 0 ≤ rate ∧ 0 < term ∧ term.den = 1 ∧
        0 ≤ payment.toRat ∧ principal.places ≤ 2 ∧ payment.places ≤ 2 := by
  unfold validate
  split_ifs with h1 h2 h3 h4 h5 h6 h7 h8 h9 <;>
    constructor <;> intro h <;>
    first
      | rfl
      | (exfalso
         obtain ⟨hp, hr, ht, hd, hpay, hpl, hpayl⟩ := h
         first
           | exact absurd h1 (not_lt.mpr hp.le)
           | exact absurd h2 (not_lt.mpr hr)
           | exact absurd h3 (not_lt.mpr ht.le)
           | exact absurd h4 (not_lt.mpr hpay)
           | exact absurd h5 (ne_of_gt ht)
           | exact absurd h6 (ne_of_gt hp)
           | exact absurd h7 (not_lt.mpr hpl)
           | exact absurd h8 (not_lt.mpr hpayl)
           | exact absurd hd h9
           | simp at h)
      | (refine ⟨lt_of_le_of_ne (not_lt.mp h1) (fun hc => h6 hc.symm), not_lt.mp h2,
          lt_of_le_of_ne (not_lt.mp h3) (fun hc => h5 hc.symm), not_not.mp h9,
          not_lt.mp h4, not_lt.mp h7, not_lt.mp h8⟩)
      | simp at h

/-! ## Structural lemmas about the projection engine -/

lemma interestCharged_length (p pay : ℚ) (mb : List ℚ) :
    (interestCharged p pay mb).length = mb.length := by
  unfold interestCharged monthStartBalances
  cases mb with
  | nil => simp
  | cons x xs => simp [List.length_zipWith, List.length_dropLast]

lemma make_interestCharged (p pay : ℚ) (mb : List ℚ) :
    LoanProjection.make mb (interestCharged p pay mb) =
      .ok ⟨mb, interestCharged p pay mb⟩ := by
  unfold LoanProjection.make
  rw [if_pos (interestCharged_length p pay mb).symm]

lemma loan_projection_eq_ok {e : ℚ → ℚ} {principal : PDec} {rate term : ℚ}
    {payment : PDec} {ity : InterestTypeArg} {proj : LoanProjection}
    (h : loan_projection e principal rate term payment ity = .ok proj) :
    validate principal rate term payment = .ok () ∧
      ∃ raw,
        rawBalances e principal.toRat rate payment.toRat term.num.toNat ity =
          .ok raw ∧
        proj.month_end_balance =
          (raw.take (stopIndex raw term.num.toNat)).map round_decimal ∧
        proj.monthly_interest_charged =
          interestCharged principal.toRat payment.toRat proj.month_end_balance := by
  cases hv : validate principal rate term payment with
  | error err =>
    simp only [loan_projection, hv] at h
    exact Except.noConfusion h
  | ok u =>
    cases u
    cases hr : rawBalances e principal.toRat rate payment.toRat term.num.toNat ity with
    | error err =>
      simp only [loan_projection, hv, hr] at h
      exact Except.noConfusion h
    | ok raw =>
      simp only [loan_projection, hv, hr, make_interestCharged] at h
      cases h
      exact ⟨rfl, raw, rfl, rfl, rfl⟩

lemma monthStartBalances_getD (p : ℚ) (mb : List ℚ) (i : ℕ)
    (hi : i < mb.length) :
    (monthStartBalances p mb).getD i 0 =
      if i = 0 then p else mb.getD (i - 1) 0 := by
  unfold monthStartBalances
  cases i with
  | zero => simp
  | succ j =>
    have hj : j < mb.dropLast.length ∨ mb.dropLast.length ≤ j := lt_or_le _ _
    simp only [List.getD_cons_succ, Nat.succ_sub_one, if_neg (Nat.succ_ne_zero j)]
    rcases hj with hj | hj
    · have hj2 : j < mb.length := lt_of_lt_of_le hj (by rw [List.length_dropLast]; omega)
      rw [List.getD_eq_getElem _ _ hj, List.getD_eq_getElem _ _ hj2]
      exact List.getElem_dropLast mb j hj
    · exfalso
      rw [List.length_dropLast] at hj
      omega

lemma interestCharged_getD (p pay : ℚ) (mb : List ℚ) (i : ℕ)
    (hi : i < mb.length) :
    (interestCharged p pay mb).getD i 0 =
      mb.getD i 0 - (monthStartBalances p mb).getD i 0 + pay := by
  have hlen : i < (interestCharged p pay mb).length := by
    rw [interestCharged_length]; exact hi
  have hstart : i < (monthStartBalances p mb).length := by
    unfold monthStartBalances
    simp [List.length_dropLast]
    omega
  unfold interestCharged at hlen ⊢
  rw [List.getD_eq_getElem _ _ hlen, List.getD_eq_getElem _ _ hi,
    List.getD_eq_getElem _ _ hstart]
  rw [List.getElem_zipWith]

lemma ledger_identity (p pay : ℚ) (mb : List ℚ) (i : ℕ) (hi : i < mb.length) :
    mb.getD i 0 =
      (if i = 0 then p else mb.getD (i - 1) 0) - pay +
        (interestCharged p pay mb).getD i 0 := by
  rw [interestCharged_getD p pay mb i hi, monthStartBalances_getD p mb i hi]
  ring

/-! ## Lemmas about the truncation scan -/

lemma firstNonpos_eq_some {l : List ℚ} {i : ℕ} (h : firstNonpos l = some i) :
    i < l.length ∧ l.getD i 0 ≤ 0 ∧ ∀ j < i, ¬ l.getD j 0 ≤ 0 := by
  induction l generalizing i with
  | nil => exact absurd h (by simp [firstNonpos])
  | cons b rest ih =>
    unfold firstNonpos at h
    by_cases hb : b ≤ 0
    · rw [if_pos hb] at h
      cases h
      exact ⟨by simp, by simpa using hb, by omega⟩
    · rw [if_neg hb] at h
      cases hrest : firstNonpos rest with
      | none => rw [hrest] at h; simp at h
      | some i0 =>
        rw [hrest] at h
        simp only [Option.map_some'] at h
        cases h
        obtain ⟨h1, h2, h3⟩ := ih hrest
        refine ⟨by simpa using h1, by simpa using h2, ?_⟩
        intro j hj
        cases j with
        | zero => simpa using hb
        | succ j0 => simpa using h3 j0 (by omega)

lemma firstNonpos_eq_none {l : List ℚ} (h : firstNonpos l = none) :
    ∀ j < l.length, ¬ l.getD j 0 ≤ 0 := by
  induction l with
  | nil => intro j hj; exact absurd hj (by simp)
  | cons b rest ih =>
    unfold firstNonpos at h
    by_cases hb : b ≤ 0
    · rw [if_pos hb] at h; simp at h
    · rw [if_neg hb] at h
      cases hrest : firstNonpos rest with
      | some i0 => rw [hrest] at h; simp at h
      | none =>
        intro j hj
        cases j with
        | zero => simpa using hb
        | succ j0 =>
          simp only [List.length_cons] at hj
          simpa using ih hrest j0 (by omega)

lemma stopIndex_le {l : List ℚ} {t : ℕ} (hl : l.length = t) :
    stopIndex l t ≤ t := by
  cases hf : firstNonpos l with
  | none => simp only [stopIndex, hf]; exact le_refl t
  | some i =>
    simp only [stopIndex, hf]
    have := (firstNonpos_eq_some hf).1
    omega

lemma stopIndex_pos {l : List ℚ} {t : ℕ} (ht : 0 < t) : 0 < stopIndex l t := by
  cases hf : firstNonpos l with
  | none => simp only [stopIndex, hf]; exact ht
  | some i => simp only [stopIndex, hf]; omega

/-! ## Lemmas about the raw balance list -/

lemma rawBalances_zero_rate (e : ℚ → ℚ) (p pay : ℚ) (t : ℕ)
    (ity : InterestTypeArg) :
    rawBalances e p 0 pay t ity =
      .ok ((List.range t).map (fun n : ℕ => p - pay * ((n : ℚ) + 1))) := by
  unfold rawBalances
  rw [if_pos rfl]

lemma rawBalances_ok_length {e : ℚ → ℚ} {p a pay : ℚ} {t : ℕ}
    {ity : InterestTypeArg} {raw : List ℚ}
    (h : rawBalances e p a pay t ity = .ok raw) : raw.length = t := by
  unfold rawBalances at h
  by_cases ha : a = 0
  · rw [if_pos ha] at h
    cases h
    rw [List.length_map, List.length_range]
  · rw [if_neg ha] at h
    cases hm : monthly_interest_rateDec e a ity with
    | error err => rw [hm] at h; exact Except.noConfusion h
    | ok r =>
      rw [hm] at h
      cases h
      rw [List.length_map, List.length_range]

lemma range_map_getD {α : Type} (f : ℕ → α) (d : α) {t n : ℕ} (hn : n < t) :
    ((List.range t).map f).getD n d = f n := by
  have hlen : n < ((List.range t).map f).length := by simpa using hn
  rw [List.getD_eq_getElem _ _ hlen]
  simp

lemma take_map_round_getD {raw : List ℚ} {s n : ℕ}
    (hn : n < ((raw.take s).map round_decimal).length) :
    ((raw.take s).map round_decimal).getD n 0 = round_decimal (raw.getD n 0) := by
  have hn2 : n < (raw.take s).length := by simpa using hn
  have hn3 : n < raw.length := by
    rw [List.length_take] at hn2
    omega
  rw [List.getD_eq_getElem _ _ hn, List.getD_eq_getElem _ _ hn3]
  simp [List.getElem_take]

lemma proj_mb_length {raw : List ℚ} {t : ℕ} (hl : raw.length = t) :
    ((raw.take (stopIndex raw t)).map round_decimal).length = stopIndex raw t := by
  rw [List.length_map, List.length_take]
  have := stopIndex_le hl
  omega

lemma term_cast_eq {q : ℚ} (hden : q.den = 1) (hpos : 0 < q) :
    ((q.num.toNat : ℕ) : ℚ) = q := by
  have hnum : (0 : ℤ) ≤ q.num := (Rat.num_pos.mpr hpos).le
  have h1 : ((q.num.toNat : ℕ) : ℤ) = q.num := Int.toNat_of_nonneg hnum
  have h2 : ((q.num : ℤ) : ℚ) = q := by
    conv_rhs => rw [← Rat.num_div_den q]
    rw [hden]
    norm_num
  rw [← h2]
  exact_mod_cast congrArg (fun z : ℤ => (z : ℚ)) h1

/-- Supporting fact: at zero months the closed form gives back the
principal. -/
lemma loan_balance_zero (p r pay : ℚ) : loan_balance p r 0 pay = p := by
  unfold loan_balance
  simp

/-- Supporting fact: for a nonzero rate the closed form satisfies the
month-by-month amortization recurrence (interest accrual then payment), so
it is the standard amortization identity. -/
lemma loan_balance_succ (p r pay : ℚ) (n : ℕ) (h : r ≠ 0) :
    loan_balance p r (n + 1) pay = loan_balance p r n pay * (1 + r) - pay := by
  unfold loan_balance
  field_simp
  ring

/-- A fully evaluated run of the engine on a concrete accepted input:
principal 1000, zero annual rate, term 2 months, payment 100. -/
lemma loan_projection_example1 :
    loan_projection (fun _ => 0) ⟨1000, 0⟩ 0 2 ⟨100, 0⟩ .NOMINAL =
      .ok ⟨[900, 800], [0, 0]⟩ := by
  norm_num [loan_projection, validate, PDec.toRat, PDec.places, rawBalances,
    List.range_succ, firstNonpos, stopIndex, round_decimal, roundHalfEvenInt,
    interestCharged, monthStartBalances, LoanProjection.make]
  rw [show Int.toNat 2 = 2 from rfl]
  norm_num [List.range_succ, round_decimal, roundHalfEvenInt]

/-- C1: for every input accepted by validation, the returned projection
satisfies, at every 0-based index `i` of its sequences, the exact equality
`month_end_balance[i] = (principal if i = 0 else month_end_balance[i-1])
- monthly_payment + monthly_interest_charged[i]`, with zero tolerance. -/
theorem C1_ledger_identity (e : ℚ → ℚ) (principal : PDec) (rate term : ℚ)
    (payment : PDec) (ity : InterestTypeArg) (proj : LoanProjection)
    (h : loan_projection e principal rate term payment ity = .ok proj)
    (i : ℕ) (hi : i < proj.month_end_balance.length) :
    proj.month_end_balance.getD i 0 =
      (if i = 0 then principal.toRat else proj.month_end_balance.getD (i - 1) 0)
        - payment.toRat + proj.monthly_interest_charged.getD i 0 := by
  obtain ⟨-, raw, -, hmb, hmi⟩ := loan_projection_eq_ok h
  rw [hmi]
  exact ledger_identity principal.toRat payment.toRat proj.month_end_balance i hi

/-- Witness for C1 at a concrete accepted input: principal 1000, zero rate,
term 2, payment 100, at index `i = 1`. -/
theorem C1_ledger_identity_witness :
    (LoanProjection.mk [(900 : ℚ), 800] [0, 0]).month_end_balance.getD 1 0 =
      (if 1 = 0 then (PDec.mk 1000 0).toRat
        else (LoanProjection.mk [(900 : ℚ), 800] [0, 0]).month_end_balance.getD 0 0)
        - (PDec.mk 100 0).toRat
        + (LoanProjection.mk [(900 : ℚ), 800] [0, 0]).monthly_interest_charged.getD 1 0 :=
  C1_ledger_identity (fun _ => 0) ⟨1000, 0⟩ 0 2 ⟨100, 0⟩ .NOMINAL
    ⟨[900, 800], [0, 0]⟩ loan_projection_example1 1 (by norm_num)

/-- C5: for every input accepted by validation the two sequences of the
returned `LoanProjection` have identical length, that length is at most
`term_months`, and constructing a `LoanProjection` from two sequences of
unequal length is a hard error rather than a value. -/
theorem C5_length_invariant (e : ℚ → ℚ) (principal : PDec) (rate term : ℚ)
    (payment : PDec) (ity : InterestTypeArg) (proj : LoanProjection)
    (mb mi : List ℚ)
    (h : loan_projection e principal rate term payment ity = .ok proj)
    (hne : mb.length ≠ mi.length) :
    proj.month_end_balance.length = proj.monthly_interest_charged.length ∧
      (proj.month_end_balance.length : ℚ) ≤ term ∧
      LoanProjection.make mb mi =
        .error (.valueError "Data inputs have unequal length.") := by
  obtain ⟨hv, raw, hr, hmb, hmi⟩ := loan_projection_eq_ok h
  obtain ⟨-, -, htpos, hden, -, -, -⟩ := (validate_ok_iff principal rate term payment).mp hv
  refine ⟨?_, ?_, ?_⟩
  · rw [hmi, interestCharged_length]
  · have hlen : proj.month_end_balance.length = stopIndex raw term.num.toNat := by
      rw [hmb]
      exact proj_mb_length (rawBalances_ok_length hr)
    have hle : stopIndex raw term.num.toNat ≤ term.num.toNat :=
      stopIndex_le (rawBalances_ok_length hr)
    rw [hlen]
    calc (stopIndex raw term.num.toNat : ℚ)
        ≤ (term.num.toNat : ℚ) := by exact_mod_cast hle
      _ = term := term_cast_eq hden htpos
  · unfold LoanProjection.make
    rw [if_neg hne]

/-- Witness for C5 at a concrete accepted input and the mismatched pair
`[0]`, `[]`. -/
theorem C5_length_invariant_witness :
    (LoanProjection.mk [(900 : ℚ), 800] [0, 0]).month_end_balance.length =
        (LoanProjection.mk [(900 : ℚ), 800] [0, 0]).monthly_interest_charged.length ∧
      ((LoanProjection.mk [(900 : ℚ), 800] [0, 0]).month_end_balance.length : ℚ) ≤ 2 ∧
      LoanProjection.make [0] [] =
        .error (.valueError "Data inputs have unequal length.") :=
  C5_length_invariant (fun _ => 0) ⟨1000, 0⟩ 0 2 ⟨100, 0⟩ .NOMINAL
    ⟨[900, 800], [0, 0]⟩ [0] [] loan_projection_example1 (by norm_num)

/-- C7: for every principal, payment, month count and nonzero monthly rate,
`loan_balance` returns exactly
`principal * (1+r)^n - payment * ((1+r)^n - 1) / r`. -/
theorem C7_closed_form (p r pay : ℚ) (n : ℕ) (h : r ≠ 0) :
    loan_balance p r n pay = p * (1 + r) ^ n - pay * ((1 + r) ^ n - 1) / r := by
  unfold loan_balance
  rw [add_comm r 1]

/-- Witness for C7 at principal 1000, rate 1/100, two months, payment 100. -/
theorem C7_closed_form_witness :
    loan_balance 1000 (1 / 100) 2 100 =
      1000 * (1 + 1 / 100) ^ 2 - 100 * ((1 + 1 / 100) ^ 2 - 1) / (1 / 100) :=
  C7_closed_form 1000 (1 / 100) 100 2 (by norm_num)

/-- C8: for every non-negative annual percentage rate `a`, the `NOMINAL`
conversion returns exactly `a / 1200` and the `EFFECTIVE` conversion returns
`(1 + a/100)^(1/12) - 1`, the rate whose 12-fold compounding reproduces the
stated annual effective rate. -/
theorem C8_rate_conversion (a : ℝ) (h : 0 ≤ a) :
    monthly_interest_rate a .NOMINAL = .ok (a / 1200) ∧
      monthly_interest_rate a .EFFECTIVE =
        .ok ((1 + a / 100) ^ ((1 : ℝ) / 12) - 1) ∧
      (1 + ((1 + a / 100) ^ ((1 : ℝ) / 12) - 1)) ^ (12 : ℕ) = 1 + a / 100 := by
  refine ⟨by norm_num [monthly_interest_rate], rfl, ?_⟩
  have h0 : (0 : ℝ) ≤ 1 + a / 100 := by linarith
  have h1 : 1 + ((1 + a / 100) ^ ((1 : ℝ) / 12) - 1) =
      (1 + a / 100) ^ ((1 : ℝ) / 12) := by ring
  rw [h1, ← Real.rpow_natCast ((1 + a / 100) ^ ((1 : ℝ) / 12)) 12,
    ← Real.rpow_mul h0]
  norm_num

/-- Witness for C8 at `a = 0`. -/
theorem C8_rate_conversion_witness :
    monthly_interest_rate 0 .NOMINAL = .ok ((0 : ℝ) / 1200) ∧
      monthly_interest_rate 0 .EFFECTIVE =
        .ok ((1 + (0 : ℝ) / 100) ^ ((1 : ℝ) / 12) - 1) ∧
      (1 + ((1 + (0 : ℝ) / 100) ^ ((1 : ℝ) / 12) - 1)) ^ (12 : ℕ) =
        1 + (0 : ℝ) / 100 :=
  C8_rate_conversion 0 le_rfl

lemma getD_mem {l : List ℚ} {j : ℕ} (hj : j < l.length) : l.getD j 0 ∈ l := by
  rw [List.getD_eq_getElem _ _ hj]
  exact List.getElem_mem hj

/-- C2: for every input accepted by validation, the length of the returned
sequences is the smallest 1-indexed month at which the raw (unrounded)
balance is `≤ 0`, and is `term_months` when no raw balance within the term
is `≤ 0`; truncation is decided on the unrounded balances, inclusive of the
first nonpositive entry. -/
theorem C2_truncation_length (e : ℚ → ℚ) (principal : PDec) (rate term : ℚ)
    (payment : PDec) (ity : InterestTypeArg) (proj : LoanProjection)
    (raw : List ℚ)
    (h : loan_projection e principal rate term payment ity = .ok proj)
    (hraw : rawBalances e principal.toRat rate payment.toRat
      term.num.toNat ity = .ok raw) :
    ((term.num.toNat : ℚ) = term) ∧
      (∀ hex : ∃ k, k < term.num.toNat ∧ raw.getD k 0 ≤ 0,
        proj.month_end_balance.length = Nat.find hex + 1) ∧
      ((¬ ∃ k, k < term.num.toNat ∧ raw.getD k 0 ≤ 0) →
        proj.month_end_balance.length = term.num.toNat) := by
  obtain ⟨hv, raw2, hr2, hmb, -⟩ := loan_projection_eq_ok h
  have hraw2 : raw = raw2 := by
    rw [hraw] at hr2
    injection hr2
  subst hraw2
  obtain ⟨-, -, htpos, hden, -, -, -⟩ :=
    (validate_ok_iff principal rate term payment).mp hv
  have hlenraw : raw.length = term.num.toNat := rawBalances_ok_length hr2
  have hlen : proj.month_end_balance.length = stopIndex raw term.num.toNat := by
    rw [hmb]
    exact proj_mb_length hlenraw
  refine ⟨term_cast_eq hden htpos, ?_, ?_⟩
  · intro hex
    cases hf : firstNonpos raw with
    | none =>
      exfalso
      obtain ⟨k, hk, hk0⟩ := hex
      exact firstNonpos_eq_none hf k (by omega) hk0
    | some i =>
      obtain ⟨hi1, hi2, hi3⟩ := firstNonpos_eq_some hf
      have hfind : Nat.find hex = i := by
        rw [Nat.find_eq_iff]
        refine ⟨⟨by omega, hi2⟩, ?_⟩
        intro j hj hcontra
        exact hi3 j hj hcontra.2
      rw [hlen, hfind]
      simp only [stopIndex, hf]
  · intro hnone
    cases hf : firstNonpos raw with
    | some i =>
      exfalso
      obtain ⟨hi1, hi2, -⟩ := firstNonpos_eq_some hf
      exact hnone ⟨i, by omega, hi2⟩
    | none =>
      rw [hlen]
      simp only [stopIndex, hf]

/-- C6: for every input accepted by validation whose annual rate is zero,
entry `n` of `month_end_balance` equals `principal - payment * (n + 1)`
exactly, and every entry of `monthly_interest_charged` equals zero exactly,
for all indices present after truncation. -/
theorem C6_zero_rate_exact (e : ℚ → ℚ) (principal : PDec) (term : ℚ)
    (payment : PDec) (ity : InterestTypeArg) (proj : LoanProjection)
    (h : loan_projection e principal 0 term payment ity = .ok proj)
    (n : ℕ) (hn : n < proj.month_end_balance.length) :
    proj.month_end_balance.getD n 0 =
      principal.toRat - payment.toRat * ((n : ℚ) + 1) ∧
      proj.monthly_interest_charged.getD n 0 = 0 := by
  obtain ⟨hv, raw, hr, hmb, hmi⟩ := loan_projection_eq_ok h
  obtain ⟨-, -, -, -, -, hpl, hpayl⟩ :=
    (validate_ok_iff principal 0 term payment).mp hv
  have hpc : IsCenti principal.toRat := PDec.isCenti_toRat hpl
  have hpayc : IsCenti payment.toRat := PDec.isCenti_toRat hpayl
  have hlenraw : raw.length = term.num.toNat := rawBalances_ok_length hr
  rw [rawBalances_zero_rate] at hr
  injection hr with hr
  have hrawget : ∀ k, k < term.num.toNat →
      raw.getD k 0 = principal.toRat - payment.toRat * ((k : ℚ) + 1) := by
    intro k hk
    rw [← hr]
    exact range_map_getD _ 0 hk
  have key : ∀ m, m < proj.month_end_balance.length →
      proj.month_end_balance.getD m 0 =
        principal.toRat - payment.toRat * ((m : ℚ) + 1) := by
    intro m hm
    have hm2 := hm
    rw [hmb] at hm2
    have hms : m < stopIndex raw term.num.toNat := by
      rw [← proj_mb_length hlenraw]
      exact hm2
    have hmt : m < term.num.toNat := lt_of_lt_of_le hms (stopIndex_le hlenraw)
    rw [hmb, take_map_round_getD hm2, hrawget m hmt]
    apply round_decimal_eq_self
    have hmul : IsCenti (payment.toRat * ((m : ℚ) + 1)) := by
      have := hpayc.mul_natCast (m + 1)
      push_cast at this
      exact this
    exact hpc.sub hmul
  refine ⟨key n hn, ?_⟩
  rw [hmi, interestCharged_getD _ _ _ n hn, monthStartBalances_getD _ _ n hn]
  cases n with
  | zero =>
    rw [key 0 hn]
    norm_num
  | succ m =>
    rw [if_neg (Nat.succ_ne_zero m), Nat.succ_sub_one, key (m + 1) hn,
      key m (by omega)]
    push_cast
    ring

/-- C10: for every input accepted by validation, every element of both
returned sequences is an integer multiple of `0.01`, including every
`monthly_interest_charged` entry. -/
theorem C10_output_is_centi (e : ℚ → ℚ) (principal : PDec) (rate term : ℚ)
    (payment : PDec) (ity : InterestTypeArg) (proj : LoanProjection)
    (h : loan_projection e principal rate term payment ity = .ok proj) :
    (∀ x ∈ proj.month_end_balance, IsCenti x) ∧
      ∀ x ∈ proj.monthly_interest_charged, IsCenti x := by
  obtain ⟨hv, raw, hr, hmb, hmi⟩ := loan_projection_eq_ok h
  obtain ⟨-, -, -, -, -, hpl, hpayl⟩ :=
    (validate_ok_iff principal rate term payment).mp hv
  have hmbC : ∀ x ∈ proj.month_end_balance, IsCenti x := by
    intro x hx
    rw [hmb] at hx
    obtain ⟨y, -, rfl⟩ := List.mem_map.mp hx
    exact round_decimal_isCenti y
  refine ⟨hmbC, ?_⟩
  intro x hx
  rw [hmi] at hx
  obtain ⟨i, hi, rfl⟩ := List.mem_iff_getElem.mp hx
  have hi2 : i < proj.month_end_balance.length := by
    rw [interestCharged_length] at hi
    exact hi
  rw [← List.getD_eq_getElem _ 0 hi, interestCharged_getD _ _ _ i hi2,
    monthStartBalances_getD _ _ i hi2]
  have h1 : IsCenti (proj.month_end_balance.getD i 0) :=
    hmbC _ (getD_mem hi2)
  have h2 : IsCenti
      (if i = 0 then principal.toRat
        else proj.month_end_balance.getD (i - 1) 0) := by
    by_cases hi0 : i = 0
    · rw [if_pos hi0]
      exact PDec.isCenti_toRat hpl
    · rw [if_neg hi0]
      exact hmbC _ (getD_mem (by omega))
  exact (h1.sub h2).add (PDec.isCenti_toRat hpayl)

/-- The raw balance list of the same concrete run. -/
lemma rawBalances_example1 :
    rawBalances (fun _ => 0) (PDec.mk 1000 0).toRat 0 (PDec.mk 100 0).toRat
      (2 : ℚ).num.toNat .NOMINAL = .ok [900, 800] := by
  rw [show ((2 : ℚ).num.toNat) = 2 from rfl]
  norm_num [rawBalances, PDec.toRat, List.range_succ]

/-- Witness for C2 at the concrete run: no raw balance is nonpositive, so
the output keeps all `term_months = 2` entries. -/
theorem C2_truncation_length_witness :
    (((2 : ℚ).num.toNat : ℚ) = 2) ∧
      (∀ hex : ∃ k, k < (2 : ℚ).num.toNat ∧
          ([(900 : ℚ), 800]).getD k 0 ≤ 0,
        (LoanProjection.mk [(900 : ℚ), 800] [0, 0]).month_end_balance.length =
          Nat.find hex + 1) ∧
      ((¬ ∃ k, k < (2 : ℚ).num.toNat ∧ ([(900 : ℚ), 800]).getD k 0 ≤ 0) →
        (LoanProjection.mk [(900 : ℚ), 800] [0, 0]).month_end_balance.length =
          (2 : ℚ).num.toNat) :=
  C2_truncation_length (fun _ => 0) ⟨1000, 0⟩ 0 2 ⟨100, 0⟩ .NOMINAL
    ⟨[900, 800], [0, 0]⟩ [900, 800] loan_projection_example1
    rawBalances_example1

/-- Witness for C6 at the concrete zero-rate run, index `n = 1`. -/
theorem C6_zero_rate_exact_witness :
    (LoanProjection.mk [(900 : ℚ), 800] [0, 0]).month_end_balance.getD 1 0 =
      (PDec.mk 1000 0).toRat - (PDec.mk 100 0).toRat * (((1 : ℕ) : ℚ) + 1) ∧
      (LoanProjection.mk [(900 : ℚ), 800]
        [0, 0]).monthly_interest_charged.getD 1 0 = 0 :=
  C6_zero_rate_exact (fun _ => 0) ⟨1000, 0⟩ 2 ⟨100, 0⟩ .NOMINAL
    ⟨[900, 800], [0, 0]⟩ loan_projection_example1 1 (by norm_num)

/-- Witness for C10 at the concrete run. -/
theorem C10_output_is_centi_witness :
    (∀ x ∈ (LoanProjection.mk [(900 : ℚ), 800] [0, 0]).month_end_balance,
        IsCenti x) ∧
      ∀ x ∈ (LoanProjection.mk [(900 : ℚ), 800]
        [0, 0]).monthly_interest_charged, IsCenti x :=
  C10_output_is_centi (fun _ => 0) ⟨1000, 0⟩ 0 2 ⟨100, 0⟩ .NOMINAL
    ⟨[900, 800], [0, 0]⟩ loan_projection_example1

/-- C9: no division by zero occurs in the projection: the zero-annual-rate
case takes the separate linear branch (which never evaluates
`loan_balance`, the only place dividing by the monthly rate), and for every
positive annual rate both rate conversions yield a nonzero monthly rate. -/
theorem C9_no_division_by_zero (e : ℚ → ℚ) (p pay : ℚ) (t : ℕ)
    (ity : InterestTypeArg) (a : ℚ) (b : ℝ) (ha : 0 < a) (hb : 0 < b) :
    rawBalances e p 0 pay t ity =
      .ok ((List.range t).map (fun n : ℕ => p - pay * ((n : ℚ) + 1))) ∧
      monthly_interest_rateDec e a .NOMINAL = .ok (a / (12 * 100)) ∧
      a / (12 * 100) ≠ 0 ∧
      monthly_interest_rate b .EFFECTIVE =
        .ok ((1 + b / 100) ^ ((1 : ℝ) / 12) - 1) ∧
      (1 + b / 100) ^ ((1 : ℝ) / 12) - 1 ≠ 0 := by
  refine ⟨rawBalances_zero_rate e p pay t ity, rfl,
    div_ne_zero (ne_of_gt ha) (by norm_num), rfl, ?_⟩
  have h1 : (1 : ℝ) < (1 + b / 100) ^ ((1 : ℝ) / 12) := by
    rw [Real.one_lt_rpow_iff_of_pos (by linarith)]
    exact Or.inl ⟨by linarith, by norm_num⟩
  have h2 : (0 : ℝ) < (1 + b / 100) ^ ((1 : ℝ) / 12) - 1 := by linarith
  exact ne_of_gt h2

/-- Witness for C9 at annual rate 5 (both as a rational and as a real). -/
theorem C9_no_division_by_zero_witness :
    rawBalances (fun _ => 0) 1000 0 100 2 .NOMINAL =
      .ok ((List.range 2).map (fun n : ℕ => 1000 - 100 * ((n : ℚ) + 1))) ∧
      monthly_interest_rateDec (fun _ => 0) 5 .NOMINAL = .ok (5 / (12 * 100)) ∧
      (5 : ℚ) / (12 * 100) ≠ 0 ∧
      monthly_interest_rate 5 .EFFECTIVE =
        .ok ((1 + (5 : ℝ) / 100) ^ ((1 : ℝ) / 12) - 1) ∧
      (1 + (5 : ℝ) / 100) ^ ((1 : ℝ) / 12) - 1 ≠ 0 :=
  C9_no_division_by_zero (fun _ => 0) 1000 100 2 .NOMINAL 5 5
    (by norm_num) (by norm_num)

/-- C3 counterexample: with annual rate 0 (which passes validation) and a
non-member interest type, `loan_projection` returns a projection and raises
no error: the zero-rate branch never inspects the interest type. -/
theorem C3_counterexample_zero_rate_no_error :
    loan_projection (fun _ => 0) ⟨1000, 0⟩ 0 2 ⟨100, 0⟩ .invalid =
      .ok ⟨[900, 800], [0, 0]⟩ := by
  norm_num [loan_projection, validate, PDec.toRat, PDec.places, rawBalances,
    List.range_succ, firstNonpos, stopIndex, round_decimal, roundHalfEvenInt,
    interestCharged, monthStartBalances, LoanProjection.make]
  rw [show Int.toNat 2 = 2 from rfl]
  norm_num [List.range_succ, round_decimal, roundHalfEvenInt]

/-- C3 amended: for every input whose numeric arguments pass validation and
whose annual rate percentage is nonzero, calling `loan_projection` with an
interest-type value that is neither `EFFECTIVE` nor `NOMINAL` fails with an
invalid-argument error; when the annual rate is zero the interest type is
never examined and no such error is raised. -/
theorem C3_amended_unknown_type (e : ℚ → ℚ) (principal : PDec)
    (rate term : ℚ) (payment : PDec)
    (hv : validate principal rate term payment = .ok ()) (hr : rate ≠ 0) :
    loan_projection e principal rate term payment .invalid =
      .error (.valueError "Unknown interest rate type.") := by
  simp only [loan_projection, hv, rawBalances, if_neg hr,
    monthly_interest_rateDec]

/-- Witness for the amended C3 at annual rate 5. -/
theorem C3_amended_unknown_type_witness :
    loan_projection (fun _ => 0) ⟨1000, 0⟩ 5 2 ⟨100, 0⟩ .invalid =
      .error (.valueError "Unknown interest rate type.") :=
  C3_amended_unknown_type (fun _ => 0) ⟨1000, 0⟩ 5 2 ⟨100, 0⟩
    (by rw [validate_ok_iff]; norm_num [PDec.toRat, PDec.places])
    (by norm_num)

/-- C4 counterexample: at `term_months = -10.5` (a non-integral value, with
every other argument valid) the call fails with the invalid-argument
(`ValueError`) negativity error, not with a type-mismatch error, because
the negativity checks run before the integrality check. -/
theorem C4_counterexample_negative_fractional_term :
    loan_projection (fun _ => 0) ⟨1000, 0⟩ 5 (-21 / 2) ⟨100, 0⟩ .NOMINAL =
      .error (.valueError "Argument term_months cannot be negative.") ∧
      ((-21 : ℚ) / 2).den ≠ 1 := by
  constructor
  · have hv : validate ⟨1000, 0⟩ 5 (-21 / 2) ⟨100, 0⟩ =
        .error (.valueError "Argument term_months cannot be negative.") := by
      norm_num [validate, PDec.toRat]
    simp only [loan_projection, hv]
  · norm_num

lemma validate_error_typeError {principal : PDec} {rate term : ℚ}
    {payment : PDec} {msg : String}
    (h : validate principal rate term payment = .error (.typeError msg)) :
    0 < principal.toRat ∧ 0 ≤ rate ∧ 0 < term ∧ 0 ≤ payment.toRat ∧
      principal.places ≤ 2 ∧ payment.places ≤ 2 ∧ term.den ≠ 1 := by
  unfold validate at h
  split_ifs at h with g1 g2 g3 g4 g5 g6 g7 g8 g9
  · exact absurd h (by simp)
  · exact absurd h (by simp)
  · exact absurd h (by simp)
  · exact absurd h (by simp)
  · exact absurd h (by simp)
  · exact absurd h (by simp)
  · exact absurd h (by simp)
  · exact absurd h (by simp)
  · refine ⟨?_, not_lt.mp g2, ?_, not_lt.mp g4, not_lt.mp g7,
      not_lt.mp g8, g9⟩
    · exact lt_of_le_of_ne (not_lt.mp g1) (fun hc => g6 hc.symm)
    · exact lt_of_le_of_ne (not_lt.mp g3) (fun hc => g5 hc.symm)

/-- C4 amended: `loan_projection` fails before computing any balance on
every listed violation; any of the `InvalidArgument` conditions yields a
`ValueError`; a non-integral term yields the `TypeError` provided no
`InvalidArgument` condition holds (those checks run first); and validation
passes exactly when all the constraints hold. -/
theorem C4_amended_validation (e : ℚ → ℚ) (principal : PDec) (rate term : ℚ)
    (payment : PDec) (ity : InterestTypeArg) :
    (validate principal rate term payment = .ok () ↔
      0 < principal.toRat ∧ 0 ≤ rate ∧ 0 < term ∧ term.den = 1 ∧
        0 ≤ payment.toRat ∧ principal.places ≤ 2 ∧ payment.places ≤ 2) ∧
      (∀ err, validate principal rate term payment = .error err →
        loan_projection e principal rate term payment ity = .error err) ∧
      ((0 < principal.toRat ∧ 0 ≤ rate ∧ 0 ≤ payment.toRat ∧
          principal.places ≤ 2 ∧ payment.places ≤ 2 ∧ 0 < term ∧
          term.den ≠ 1) →
        validate principal rate term payment =
          .error (.typeError "Argument term_months must be an integer.")) ∧
      ((principal.toRat ≤ 0 ∨ rate < 0 ∨ payment.toRat < 0 ∨ term ≤ 0 ∨
          2 < principal.places ∨ 2 < payment.places) →
        ∃ msg, validate principal rate term payment =
          .error (.valueError msg)) := by
  refine ⟨validate_ok_iff principal rate term payment, ?_, ?_, ?_⟩
  · intro err herr
    simp only [loan_projection, herr]
  · rintro ⟨hp, hr, hpay, hpl, hpayl, ht, hden⟩
    unfold validate
    split_ifs with g1 g2 g3 g4 g5 g6 g7 g8
    · exact absurd g1 (not_lt.mpr hp.le)
    · exact absurd g2 (not_lt.mpr hr)
    · exact absurd g3 (not_lt.mpr ht.le)
    · exact absurd g4 (not_lt.mpr hpay)
    · exact absurd g5 (ne_of_gt ht)
    · exact absurd g6 (ne_of_gt hp)
    · exact absurd g7 (not_lt.mpr hpl)
    · exact absurd g8 (not_lt.mpr hpayl)
    · rfl
  · intro hbad
    cases hv : validate principal rate term payment with
    | ok u =>
      exfalso
      cases u
      obtain ⟨hp, hr, ht, -, hpay, hpl, hpayl⟩ :=
        (validate_ok_iff principal rate term payment).mp hv
      rcases hbad with hb | hb | hb | hb | hb | hb
      · linarith
      · linarith
      · linarith
      · linarith
      · omega
      · omega
    | error err =>
      cases err with
      | valueError msg => exact ⟨msg, rfl⟩
      | typeError msg =>
        exfalso
        obtain ⟨hp, hr, ht, hpay, hpl, hpayl, -⟩ :=
          validate_error_typeError hv
        rcases hbad with hb | hb | hb | hb | hb | hb
        · linarith
        · linarith
        · linarith
        · linarith
        · omega
        · omega

/-- Witness for the amended C4: a positive fractional term (10.5) raises
the type-mismatch error. -/
theorem C4_amended_validation_witness :
    validate ⟨1000, 0⟩ 5 (21 / 2) ⟨100, 0⟩ =
      .error (.typeError "Argument term_months must be an integer.") :=
  (C4_amended_validation (fun _ => 0) ⟨1000, 0⟩ 5 (21 / 2) ⟨100, 0⟩
    .NOMINAL).2.2.1 (by norm_num [PDec.toRat, PDec.places])
